import Mathlib

/-!
Verification of `streamparse/cli/submit.py`: a shallow embedding of the
submission orchestrator (safety checker, kill/poll phase, option builder,
submitter, orchestrator) together with proofs about the claims made by the
natural-language specification of the repository.

External commands (the build tool, the topology lister, the kill command,
the submit command) are modelled as oracle inputs: each theorem quantifies
over the results those commands would return.
-/

namespace Streamparse

/-! ## Python whitespace and small string utilities -/

/-- Python regex `\s` character class: space, tab, newline, carriage
return, vertical tab, form feed. -/
def isPyWs (c : Char) : Bool :=
  c == ' ' || c == '\t' || c == '\n' || c == '\r' || c == '\x0b' || c == '\x0c'

/-- Does the list start with the given needle?  (Bool-valued list check
used to embed Python substring tests.) -/
def startsList (needle s : List Char) : Bool :=
  match needle, s with
  | [], _ => true
  | _ :: _, [] => false
  | c :: n, c' :: s => c == c' && startsList n s

/-- Python `needle in hay` substring test on character lists. -/
def hasSubstr (hay needle : List Char) : Bool :=
  match hay with
  | [] => startsList needle []
  | _ :: h => startsList needle hay || hasSubstr h needle

/-- The list `l` occurs contiguously inside `T`. -/
def occursIn (l T : List Char) : Prop :=
  ∃ p q, T = p ++ l ++ q

/-! ## A small regex engine

`is_safe_to_submit` builds the Python pattern
`r"{name}\s+\|\s+(ACTIVE|KILLED)\s+\|"` by string interpolation and runs
`re.search` on the listing output.  We embed exactly the regex constructs
that can occur in that pattern: literal characters, the `.` wildcard
(any character except a newline), and `\s+` (one or more whitespace
characters).  The top-level alternation `(ACTIVE|KILLED)` is expanded into
two searches, one per branch, which is semantically equal for `re.search`.
-/

/-- Regex token: a literal character, the `.` wildcard, or `\s+`. -/
inductive RTok where
  | lit (c : Char)
  | anyChar
  | wsPlus
deriving DecidableEq

/-- Does the token list match a prefix of the character list?
Existential (backtracking) semantics. -/
def matchAt (s : List Char) (ts : List RTok) : Bool :=
  match s, ts with
  | _, [] => true
  | [], _ :: _ => false
  | c' :: s, .lit c :: ts => c == c' && matchAt s ts
  | c' :: s, .anyChar :: ts => !(c' == '\n') && matchAt s ts
  | c' :: s, .wsPlus :: ts =>
      isPyWs c' && (matchAt s ts || matchAt s (.wsPlus :: ts))

/-- Python `re.search`: does the token list match at some position of `s`? -/
def reSearch (ts : List RTok) (s : List Char) : Bool :=
  match s with
  | [] => matchAt [] ts
  | _ :: s' => matchAt s ts || reSearch ts s'

/-- Tokens for the interpolated topology name.  The name is spliced into
the pattern unescaped, so a `.` in the name is the regex wildcard; all
other characters appearing in topology names are literals. -/
def nameToks (name : String) : List RTok :=
  name.data.map (fun c => if c == '.' then RTok.anyChar else RTok.lit c)

/-- The compiled pattern `{name}\s+\|\s+{state}\s+\|` for one branch of
the alternation (`state` is `"ACTIVE"` or `"KILLED"`). -/
def stillPresentPattern (name state : String) : List RTok :=
  nameToks name ++ [RTok.wsPlus, RTok.lit '|', RTok.wsPlus]
    ++ state.data.map RTok.lit ++ [RTok.wsPlus, RTok.lit '|']

/-! ## Safety checker (`is_safe_to_submit`) -/

/-- Result of the external `_list_topologies` command. -/
structure RunResult where
  failed : Bool
  stdout : String
deriving DecidableEq

/-- Embedding of `is_safe_to_submit`: raise `RuntimeError` when the list
command failed, otherwise search the listing output for the pattern
`{name}\s+\|\s+(ACTIVE|KILLED)\s+\|` and report safe iff no match. -/
def is_safe_to_submit (topology_name : String) (result : RunResult) :
    Except String Bool :=
  if result.failed then
    Except.error "Error running streamparse.commands.list/-main"
  else if reSearch (stillPresentPattern topology_name "ACTIVE") result.stdout.data
       || reSearch (stillPresentPattern topology_name "KILLED") result.stdout.data then
    Except.ok false
  else
    Except.ok true

/-! ## Spec-side description of the safety check

The specification describes the check as: the listing text contains the
name, a pipe, a still-present state and a pipe, separated by whitespace.
These definitions follow the spec wording and are compared against the
code-derived `is_safe_to_submit` in the claim C2 theorems. -/

/-- A nonempty run of whitespace characters. -/
def wsRun (w : List Char) : Prop :=
  w ≠ [] ∧ ∀ c ∈ w, isPyWs c = true

/-- The listing text contains `name ⧺ ws ⧺ "|" ⧺ ws ⧺ state ⧺ ws ⧺ "|"`
with the name taken literally, for a still-present `state`. -/
def stillPresentLine (name state : String) (T : List Char) : Prop :=
  ∃ w1 w2 w3, wsRun w1 ∧ wsRun w2 ∧ wsRun w3 ∧
    occursIn (name.data ++ w1 ++ '|' :: w2 ++ state.data ++ w3 ++ ['|']) T

/-! ## Events

Observable external actions of the orchestrator, in the order they are
performed.  `sleepMs` records the fixed poll backoff (`time.sleep(0.5)`,
i.e. 500 milliseconds). -/

/-- One observable external action. -/
inductive Ev where
  | preHooks
  | venvUpdate
  | cmdClean
  | cmdUberjar
  | tunnelOpen
  | tunnelClose
  | listQuery
  | killCmd
  | sleepMs (ms : Nat)
  | submitRun (cmd : List String)
  | postHooks
deriving DecidableEq

/-- Outcome of the kill phase: the remaining listing oracle on success,
or a propagated error message. -/
inductive KillRes where
  | ok (rem : List RunResult)
  | err (msg : String)
deriving DecidableEq

/-! ## Kill phase (`_kill_existing_topology`)

The external listing command is modelled by an oracle: a list of
`RunResult`s returned by successive `_list_topologies` calls.  The
`while not is_safe_to_submit(...)` loop has no bound in the source, so the
embedding returns `none` when the loop is still running after consuming
the whole oracle (the loop would keep polling). -/

/-- The `while not is_safe_to_submit: sleep(0.5)` poll loop, consuming one
listing per iteration.  Returns the emitted events and the outcome. -/
def pollLoop (name : String) (listings : List RunResult) :
    Option (List Ev × KillRes) :=
  match listings with
  | [] => none
  | r :: rs =>
    match is_safe_to_submit name r with
    | Except.error e => some ([Ev.listQuery], KillRes.err e)
    | Except.ok true => some ([Ev.listQuery], KillRes.ok rs)
    | Except.ok false =>
        (pollLoop name rs).map
          (fun p => (Ev.listQuery :: Ev.sleepMs 500 :: p.1, p.2))

/-- Embedding of `_kill_existing_topology`: with `force` it performs one
safety check; if the topology is present it issues a single kill command
and enters the poll loop; without `force` it does nothing at all.
The kill command itself (`_kill_topology`) is an external call modelled as
succeeding; only its issuance is observable. -/
def _kill_existing_topology (name : String) (force : Bool)
    (listings : List RunResult) : Option (List Ev × KillRes) :=
  if force then
    match listings with
    | [] => none
    | r :: rs =>
      match is_safe_to_submit name r with
      | Except.error e => some ([Ev.listQuery], KillRes.err e)
      | Except.ok true => some ([Ev.listQuery], KillRes.ok rs)
      | Except.ok false =>
          (pollLoop name rs).map
            (fun p => (Ev.listQuery :: Ev.killCmd :: p.1, p.2))
  else
    some ([], KillRes.ok listings)

/-! ## Option builder and submitter (`_submit_topology`) -/

/-- Python `option.split("=")` on character lists: split at every `=`. -/
def pySplitEq (s : List Char) : List (List Char) :=
  match s with
  | [] => [[]]
  | c :: s =>
    if c == '=' then [] :: pySplitEq s
    else
      match pySplitEq s with
      | [] => [[c]]
      | r :: rs => (c :: r) :: rs

/-- Embedding of the user-option loop body of `_submit_topology`: an
option containing the substring `deployment_stage` is split at `=` and
re-quoted (`key, val = option.split("=")` raises `ValueError` unless the
split yields exactly two parts); any other option is passed through
verbatim. -/
def renderOption (option : String) : Except String String :=
  if hasSubstr option.data "deployment_stage".data then
    match pySplitEq option.data with
    | [k, v] =>
        Except.ok ("--option \x27" ++ String.mk k ++ "=\"" ++ String.mk v ++ "\"\x27")
    | _ => Except.error "ValueError: values to unpack"
  else
    Except.ok ("--option " ++ option)

/-- Render every user option, propagating the first error. -/
def renderOptions (options : List String) : Except String (List String) :=
  match options with
  | [] => Except.ok []
  | o :: os => do
    let r ← renderOption o
    let rs ← renderOptions os
    pure (r :: rs)

/-- Python logging sub-config: `None` models an absent key and also a
value of the wrong type (which `isinstance` filters out). -/
structure LogConfig where
  path : Option String
  max_bytes : Option Int
  backup_count : Option Int
  level : Option String
deriving DecidableEq

/-- The parts of `env_config` read by the submitter and orchestrator. -/
structure EnvConfig where
  use_virtualenv : Bool
  virtualenv_root : String
  log : LogConfig
  log_path : Option String
  ssh_tunnel : Bool
deriving DecidableEq

/-- Python truthiness for an optional string (`None` and `""` are falsy). -/
def truthyStr (s : Option String) : Bool :=
  match s with
  | none => false
  | some s => s ≠ ""

/-- `log_config.get("path") or env_config.get("log_path")`: Python `or`
falls through on a falsy left operand. -/
def effectiveLogPath (cfg : EnvConfig) : Option String :=
  match cfg.log.path with
  | some p => if p == "" then cfg.log_path else some p
  | none => cfg.log_path

/-- The fixed head of the submission command: the build-tool invocation,
the topology file, and the optional host/port/debug flags (`if host:` and
`if port:` are Python truthiness tests, so `""` and `0` are skipped). -/
def baseCmd (topology_file : String) (host : Option String)
    (port : Option Nat) (debug : Bool) : List String :=
  ["lein", "run -m streamparse.commands.submit_topology/-main", topology_file]
  ++ (match host with
      | some h => if h == "" then [] else ["--host " ++ h]
      | none => [])
  ++ (match port with
      | some p => if p == 0 then [] else ["--port " ++ toString p]
      | none => [])
  ++ (if debug then ["--debug"] else [])

/-- The mandatory workers option string. -/
def workersOpt (workers : Int) : String :=
  "--option \x27topology.workers=" ++ toString workers ++ "\x27"

/-- The mandatory ackers option string. -/
def ackersOpt (ackers : Int) : String :=
  "--option \x27topology.acker.executors=" ++ toString ackers ++ "\x27"

/-- The interpreter-path option, emitted when the environment uses a
virtualenv: `'/'.join([virtualenv_root, topology_name, "bin", "python"])`. -/
def venvOpts (topology_name : String) (cfg : EnvConfig) : List String :=
  if cfg.use_virtualenv then
    ["--option \x27topology.python.path=\""
      ++ cfg.virtualenv_root ++ "/" ++ topology_name ++ "/bin/python" ++ "\"\x27"]
  else []

/-- The Python logging options, in source order: path (if truthy),
max bytes (if an int), backup count (if an int), level (if a string,
lowercased). -/
def logOpts (cfg : EnvConfig) : List String :=
  (if truthyStr (effectiveLogPath cfg) then
    ["--option \x27streamparse.log.path=\""
      ++ (effectiveLogPath cfg).getD "" ++ "\"\x27"]
   else [])
  ++ (match cfg.log.max_bytes with
      | some n => ["--option \x27streamparse.log.max_bytes=" ++ toString n ++ "\x27"]
      | none => [])
  ++ (match cfg.log.backup_count with
      | some n => ["--option \x27streamparse.log.backup_count=" ++ toString n ++ "\x27"]
      | none => [])
  ++ (match cfg.log.level with
      | some lvl => ["--option \x27streamparse.log.level=\"" ++ lvl.toLower ++ "\"\x27"]
      | none => [])

/-- The full argument list built by `_submit_topology` (pure part of the
function: everything appended to `cmd` before `run(full_cmd)`). -/
def _submit_topology_cmd (topology_name topology_file : String)
    (cfg : EnvConfig) (workers ackers : Int) (options : List String)
    (debug : Bool) (host : Option String) (port : Option Nat) :
    Except String (List String) := do
  let userOpts ← renderOptions options
  pure (baseCmd topology_file host port debug
    ++ [workersOpt workers, ackersOpt ackers]
    ++ venvOpts topology_name cfg
    ++ logOpts cfg
    ++ userOpts)

/-- The `JVM_OPTS` value: `" ".join(jvm_opts)` for the three
`-Dstorm.*` flags built from the artifact path. -/
def jvm_opts_string (topology_jar : String) : String :=
  "-Dstorm.jar=" ++ topology_jar ++ " -Dstorm.options= -Dstorm.conf.file="

/-- Process environment: an association list, most recent write first. -/
def envSet (env : List (String × String)) (k v : String) :
    List (String × String) :=
  (k, v) :: env

/-- Look up a variable in the process environment. -/
def envGet (env : List (String × String)) (k : String) : Option String :=
  match env with
  | [] => none
  | (k', v) :: rest => if k' == k then some v else envGet rest k

/-- Result of running the submitter: emitted events, outcome, and the
process environment afterwards. -/
structure SubmitOut where
  events : List Ev
  result : Except String Unit
  env : List (String × String)

/-- Embedding of `_submit_topology`: first mutate `os.environ["JVM_OPTS"]`,
then build the command; if building raised, the mutation stays; otherwise
run the command (`submit_ok` is the oracle for that external call). -/
def _submit_topology (topology_name topology_file topology_jar : String)
    (cfg : EnvConfig) (workers ackers : Int) (options : List String)
    (debug : Bool) (host : Option String) (port : Option Nat)
    (submit_ok : Bool) (env0 : List (String × String)) : SubmitOut :=
  let env1 := envSet env0 "JVM_OPTS" (jvm_opts_string topology_jar)
  match _submit_topology_cmd topology_name topology_file cfg workers ackers
          options debug host port with
  | Except.error e => ⟨[], Except.error e, env1⟩
  | Except.ok cmd =>
      ⟨[Ev.submitRun cmd],
       if submit_ok then Except.ok () else Except.error "submit command failed",
       env1⟩

/-! ## Artifact builder (`jar_for_deploy`) -/

/-- Result of an external shell command run through `invoke.run`. -/
structure CmdResult where
  ok : Bool
  stdout : String
  stderr : String
deriving DecidableEq

/-- Python `str.split()`: whitespace-separated tokens, empties dropped. -/
def pySplit (s : List Char) : List (List Char) :=
  (s.splitOnP isPyWs).filter (· ≠ [])

/-- Python `str.strip()`: drop whitespace from both ends. -/
def pyStripWs (s : List Char) : List Char :=
  ((s.dropWhile isPyWs).reverse.dropWhile isPyWs).reverse

/-- Python `str.lstrip(chars)`: drop leading characters that are members
of the given character set (note: a set of characters, not a string
to remove — `"Created "` strips any of `C r e a t d ' '`). -/
def pyLstrip (chars s : List Char) : List Char :=
  s.dropWhile (fun c => chars.contains c)

/-- The uberjar-locating list comprehension of `jar_for_deploy`:
whitespace-split the build output, keep tokens ending in
`standalone.jar`, strip each with `strip().lstrip("Created ")`. -/
def uberjarLines (stdout : String) : List String :=
  ((pySplit stdout.data).filter
      (fun l => "standalone.jar".data.isSuffixOf l)).map
    (fun l => String.mk (pyLstrip "Created ".data (pyStripWs l)))

/-- Embedding of `jar_for_deploy`: run `lein clean` then `lein uberjar`
(each raising `RuntimeError` on failure), then take the first located
uberjar token (`lines[0]` raises `IndexError` when none was found). -/
def jar_for_deploy (clean uberjar : CmdResult) : Except String String :=
  if clean.ok = false then
    Except.error ("Unable to run \x27lein clean\x27!\nSTDOUT:\n" ++ clean.stdout
      ++ "\nSTDERR:\n" ++ clean.stderr)
  else if uberjar.ok = false then
    Except.error ("Unable to run \x27lein uberjar\x27!\nSTDOUT:\n" ++ uberjar.stdout
      ++ "\nSTDERR:\n" ++ uberjar.stderr)
  else
    match uberjarLines uberjar.stdout with
    | [] => Except.error "IndexError: list index out of range"
    | j :: _ => Except.ok j

/-- The build events: `lein clean` always runs; `lein uberjar` runs only
when `lein clean` succeeded. -/
def buildEvents (clean : CmdResult) : List Ev :=
  if clean.ok then [Ev.cmdClean, Ev.cmdUberjar] else [Ev.cmdClean]

/-! ## Orchestrator (`submit_topology`) -/

/-- All inputs of one orchestrator run, external-command oracles included.
Config loading, topology-definition resolution and virtualenv syncing are
external collaborators modelled as succeeding; the hook modules are
modelled as present and succeeding, so hook execution is observable as an
event. -/
structure OrchInput where
  name : String
  topology_file : String
  env_config : EnvConfig
  host : Option String
  port : Option Nat
  workers : Int
  ackers : Int
  options : List String
  force : Bool
  debug : Bool
  clean_result : CmdResult
  uberjar_result : CmdResult
  listings : List RunResult
  submit_ok : Bool
  env0 : List (String × String)

/-- Result of one orchestrator run: the event trace, the overall outcome
(`Except.error` models a non-zero process exit), and the final process
environment. -/
structure OrchOut where
  trace : List Ev
  result : Except String Unit
  env : List (String × String)

/-- Events emitted before and during the artifact build: pre-submit
hooks, the virtualenv update when configured, and the build commands. -/
def preBuildEvents (inp : OrchInput) : List Ev :=
  Ev.preHooks ::
    (if inp.env_config.use_virtualenv then [Ev.venvUpdate] else [])
    ++ buildEvents inp.clean_result

/-- Events emitted before the kill phase begins: the build phase and, when
the environment tunnels to Nimbus over SSH, the tunnel opening. -/
def preludeEvents (inp : OrchInput) : List Ev :=
  preBuildEvents inp
    ++ (if inp.env_config.ssh_tunnel then [Ev.tunnelOpen] else [])

/-- The tunnel teardown event (the `with ssh_tunnel(...)` scope closing on
every exit path), when a tunnel was used. -/
def closeEvents (inp : OrchInput) : List Ev :=
  if inp.env_config.ssh_tunnel then [Ev.tunnelClose] else []

/-- Embedding of `submit_topology`: pre-submit hooks, virtualenv update,
artifact build, then (inside the SSH tunnel when the environment asks for
one, in which case host/port are not passed on) the kill phase, the
submitter, and on success the post-submit hooks.  Returns `none` when the
kill phase's poll loop outruns the listing oracle. -/
def submit_topology (inp : OrchInput) : Option OrchOut :=
  match jar_for_deploy inp.clean_result inp.uberjar_result with
  | Except.error e => some ⟨preBuildEvents inp, Except.error e, inp.env0⟩
  | Except.ok jar =>
    let h := if inp.env_config.ssh_tunnel then none else inp.host
    let p := if inp.env_config.ssh_tunnel then none else inp.port
    match _kill_existing_topology inp.name inp.force inp.listings with
    | none => none
    | some (ktr, KillRes.err e) =>
        some ⟨preludeEvents inp ++ ktr ++ closeEvents inp,
              Except.error e, inp.env0⟩
    | some (ktr, KillRes.ok _) =>
      let s := _submit_topology inp.name inp.topology_file jar inp.env_config
                 inp.workers inp.ackers inp.options inp.debug h p
                 inp.submit_ok inp.env0
      match s.result with
      | Except.error e =>
          some ⟨preludeEvents inp ++ ktr ++ s.events ++ closeEvents inp,
                Except.error e, s.env⟩
      | Except.ok _ =>
          some ⟨preludeEvents inp ++ ktr ++ s.events
                  ++ [Ev.postHooks] ++ closeEvents inp,
                Except.ok (), s.env⟩

/-! ## Concrete example inputs used by witnesses and counterexamples -/

/-- A minimal environment config: no virtualenv, no logging, no tunnel. -/
def exCfg : EnvConfig := ⟨false, "", ⟨none, none, none, none⟩, none, false⟩

/-- A listing in which the topology `wordcount` is ACTIVE. -/
def exListingActive : RunResult := ⟨false, "wordcount | ACTIVE |"⟩

/-- An empty (successful) listing: no topology present. -/
def exListingEmpty : RunResult := ⟨false, ""⟩

/-- The command list produced for the C6 witness instance. -/
def exCmd6 : List String :=
  ["lein", "run -m streamparse.commands.submit_topology/-main", "top.clj",
   "--option \x27topology.workers=2\x27",
   "--option \x27topology.acker.executors=1\x27",
   "--option foo=bar"]

/-- An orchestrator input whose external commands all succeed, with
`force = false` and a listing showing `wordcount` as ACTIVE. -/
def cInp1 : OrchInput :=
  { name := "wordcount", topology_file := "top.clj", env_config := exCfg,
    host := none, port := none, workers := 2, ackers := 2, options := [],
    force := false, debug := false, clean_result := ⟨true, "", ""⟩,
    uberjar_result := ⟨true, "Created wc-standalone.jar", ""⟩,
    listings := [exListingActive], submit_ok := true, env0 := [] }

/-- Like `cInp1` but with `force = true` and an oracle in which the job is
first present and then gone. -/
def cInp1w : OrchInput :=
  { cInp1 with force := true, listings := [exListingActive, exListingEmpty] }

/-- The submission command line built for `cInp1` and `cInp1w`. -/
def exCmdW : List String :=
  ["lein", "run -m streamparse.commands.submit_topology/-main", "top.clj",
   "--option \x27topology.workers=2\x27",
   "--option \x27topology.acker.executors=2\x27"]

/-- The orchestrator output for `cInp1w`. -/
def exOutW : OrchOut :=
  ⟨[Ev.preHooks, Ev.cmdClean, Ev.cmdUberjar, Ev.listQuery, Ev.killCmd,
    Ev.listQuery, Ev.submitRun exCmdW, Ev.postHooks],
   Except.ok (),
   [("JVM_OPTS", "-Dstorm.jar=wc-standalone.jar -Dstorm.options= -Dstorm.conf.file=")]⟩

/-- The orchestrator output for `cInp1` (no kill phase at all). -/
def exOut1 : OrchOut :=
  ⟨[Ev.preHooks, Ev.cmdClean, Ev.cmdUberjar, Ev.submitRun exCmdW, Ev.postHooks],
   Except.ok (),
   [("JVM_OPTS", "-Dstorm.jar=wc-standalone.jar -Dstorm.options= -Dstorm.conf.file=")]⟩

/-- An orchestrator input whose `lein clean` fails. -/
def cInp4 : OrchInput :=
  { cInp1 with clean_result := ⟨false, "", ""⟩ }

end Streamparse

namespace Streamparse

/-! ## General helper lemmas -/

/-- String append acts as list append on the underlying character data. -/
theorem strData_append (a b : String) : (a ++ b).data = a.data ++ b.data := by
  cases a; cases b; rfl

/-- Splitting a list with no `=` at `=` yields the singleton. -/
theorem pySplitEq_no_eq (s : List Char) (h : '=' ∉ s) : pySplitEq s = [s] := by
  induction s with
  | nil => rfl
  | cons c s ih =>
    rw [List.mem_cons, not_or] at h
    obtain ⟨h1, h2⟩ := h
    have hc : (c == '=') = false := by
      rw [beq_eq_false_iff_ne]
      exact fun e => h1 e.symm
    simp [pySplitEq, hc, ih h2]

/-- Splitting `k ++ "=" ++ v` at `=` yields `[k, v]` when neither part
contains `=` (the case in which Python's two-variable unpacking of
`option.split("=")` succeeds). -/
theorem pySplitEq_pair (k v : List Char) (hk : '=' ∉ k) (hv : '=' ∉ v) :
    pySplitEq (k ++ '=' :: v) = [k, v] := by
  induction k with
  | nil => simp [pySplitEq, pySplitEq_no_eq v hv]
  | cons c k ih =>
    rw [List.mem_cons, not_or] at hk
    obtain ⟨h1, h2⟩ := hk
    have hc : (c == '=') = false := by
      rw [beq_eq_false_iff_ne]
      exact fun e => h1 e.symm
    simp [pySplitEq, hc, ih h2]

/-! ## Claim C7: no kill without force -/

/-- Claim C7: with `force = false` the kill phase is a no-op — it issues
no kill command and performs no safety query, whatever the job state and
listing oracle. -/
theorem kill_phase_noop_without_force (name : String)
    (listings : List RunResult) :
    _kill_existing_topology name false listings
      = some ([], KillRes.ok listings) := rfl

/-! ## Claim C8: listing failure propagates -/

/-- Claim C8: when the underlying list command failed, `is_safe_to_submit`
raises (propagates an error) instead of returning a verdict; when the
list command succeeded it returns a boolean verdict. -/
theorem is_safe_error_propagation (name : String) (r : RunResult) :
    (r.failed = true →
      is_safe_to_submit name r
        = Except.error "Error running streamparse.commands.list/-main") ∧
    (r.failed = false → ∃ b, is_safe_to_submit name r = Except.ok b) := by
  refine ⟨fun h => by simp [is_safe_to_submit, h], fun h => ?_⟩
  simp only [is_safe_to_submit, h, Bool.false_eq_true, if_false]
  split
  · exact ⟨false, rfl⟩
  · exact ⟨true, rfl⟩

/-- Witness for C8 at concrete inputs: a failed listing raises, a
successful one returns a verdict. -/
theorem is_safe_error_propagation_witness :
    is_safe_to_submit "wordcount" ⟨true, ""⟩
      = Except.error "Error running streamparse.commands.list/-main" ∧
    ∃ b, is_safe_to_submit "wordcount" ⟨false, ""⟩ = Except.ok b :=
  ⟨(is_safe_error_propagation "wordcount" ⟨true, ""⟩).1 rfl,
   (is_safe_error_propagation "wordcount" ⟨false, ""⟩).2 rfl⟩

/-! ## Claim C10: the topology name is matched as a regex -/

/-- Claim C10: the topology name is interpolated into the search pattern
unescaped, so it is matched as a regular expression: for the name `a.c`
(whose `.` is the regex wildcard) and a listing that nowhere contains the
exact string `a.c` but has a line `abc | ACTIVE |`, the safety check
reports the topology as present (returns `false`). -/
theorem name_matched_as_regex :
    is_safe_to_submit "a.c" ⟨false, "abc | ACTIVE |"⟩ = Except.ok false ∧
    hasSubstr "abc | ACTIVE |".data "a.c".data = false :=
  ⟨rfl, rfl⟩

/-! ## Claim C5: option re-quoting -/

/-- Counterexample to claim C5 as stated: for the option
`foo=deployment_stage` the key `foo` does not contain the reserved
substring, so the claim demands verbatim pass-through, but the code tests
the whole option string and re-quotes it. -/
theorem requoting_checks_whole_option :
    hasSubstr "foo".data "deployment_stage".data = false ∧
    pySplitEq "foo=deployment_stage".data
      = ["foo".data, "deployment_stage".data] ∧
    renderOption "foo=deployment_stage"
      = Except.ok "--option \x27foo=\"deployment_stage\"\x27" ∧
    "--option \x27foo=\"deployment_stage\"\x27" ≠ "--option foo=deployment_stage" :=
  ⟨rfl, rfl, rfl, by decide⟩

/-- Claim C5 (amended): an option whose whole string (key or value) avoids
the substring `deployment_stage` is appended verbatim as `--option o`;
an option `key=value` whose string contains `deployment_stage` (and whose
parts contain no further `=`) is re-quoted so the value becomes a string
literal.  In particular `deployment_stage=prod` becomes
`deployment_stage="prod"` and `foo=bar` passes through unchanged. -/
theorem renderOption_requoting (o : String) :
    (hasSubstr o.data "deployment_stage".data = false →
      renderOption o = Except.ok ("--option " ++ o)) ∧
    (∀ key val : String, o = key ++ "=" ++ val →
      '=' ∉ key.data → '=' ∉ val.data →
      hasSubstr o.data "deployment_stage".data = true →
      renderOption o
        = Except.ok ("--option \x27" ++ key ++ "=\"" ++ val ++ "\"\x27")) := by
  constructor
  · intro h
    simp [renderOption, h]
  · intro key val ho hk hv hsub
    subst ho
    have hdata : (key ++ "=" ++ val).data = key.data ++ '=' :: val.data := by
      rw [strData_append, strData_append]
      simp
    rw [renderOption, hsub, if_pos rfl, hdata, pySplitEq_pair key.data val.data hk hv]

/-- Witness for the amended C5 at the spec's two sample options. -/
theorem renderOption_requoting_witness :
    renderOption "deployment_stage=prod"
      = Except.ok "--option \x27deployment_stage=\"prod\"\x27" ∧
    renderOption "foo=bar" = Except.ok "--option foo=bar" :=
  ⟨(renderOption_requoting "deployment_stage=prod").2 "deployment_stage" "prod"
      rfl (by decide) (by decide) rfl,
   (renderOption_requoting "foo=bar").1 rfl⟩

/-! ## Claim C6: the first two submission options -/

/-- Claim C6: whenever `_submit_topology` successfully builds its command
line, the first two `--option` arguments — immediately after the fixed
command head — are `topology.workers=<workers>` then
`topology.acker.executors=<ackers>`, before the interpreter-path option,
the logging options and the user options. -/
theorem first_two_options (name file : String) (cfg : EnvConfig)
    (workers ackers : Int) (opts : List String) (debug : Bool)
    (host : Option String) (port : Option Nat) (cmd : List String)
    (hw : 0 ≤ workers) (ha : 0 ≤ ackers)
    (h : _submit_topology_cmd name file cfg workers ackers opts debug host port
      = Except.ok cmd) :
    ∃ userOpts, renderOptions opts = Except.ok userOpts ∧
      cmd = baseCmd file host port debug
        ++ workersOpt workers :: ackersOpt ackers ::
            (venvOpts name cfg ++ logOpts cfg ++ userOpts) := by
  unfold _submit_topology_cmd at h
  cases hr : renderOptions opts with
  | error e =>
    rw [hr] at h
    simp [Except.bind] at h
  | ok us =>
    rw [hr] at h
    simp only [Except.bind, Except.pure, pure] at h
    refine ⟨us, rfl, ?_⟩
    cases h
    simp

/-- Witness for C6 at a concrete instance with one user option. -/
theorem first_two_options_witness :
    0 ≤ (2 : Int) ∧ 0 ≤ (1 : Int) ∧
    ∃ userOpts, renderOptions ["foo=bar"] = Except.ok userOpts ∧
      exCmd6 = baseCmd "top.clj" none none false
        ++ workersOpt 2 :: ackersOpt 1 ::
            (venvOpts "wc" exCfg ++ logOpts exCfg ++ userOpts) :=
  ⟨by decide, by decide,
   first_two_options "wc" "top.clj" exCfg 2 1 ["foo=bar"] false none none
     exCmd6 (by decide) (by decide) rfl⟩

/-! ## Claim C3: the kill phase kills exactly once -/

/-- Specification of the poll loop: on success it emitted only safety
queries and 500 ms sleeps, and the oracle decomposes into polled listings
that all showed the job present, a final listing that showed it absent,
and the untouched remainder. -/
theorem pollLoop_spec (name : String) (rs : List RunResult) (tr : List Ev)
    (rem : List RunResult)
    (h : pollLoop name rs = some (tr, KillRes.ok rem)) :
    (∀ e ∈ tr, e = Ev.listQuery ∨ e = Ev.sleepMs 500) ∧
    ∃ front rlast, rs = front ++ rlast :: rem ∧
      is_safe_to_submit name rlast = Except.ok true ∧
      ∀ x ∈ front, is_safe_to_submit name x = Except.ok false := by
  induction rs generalizing tr with
  | nil => simp [pollLoop] at h
  | cons r rs ih =>
    rw [pollLoop] at h
    cases hs : is_safe_to_submit name r with
    | error e => rw [hs] at h; simp at h
    | ok b =>
      cases b
      · rw [hs] at h
        cases hp : pollLoop name rs with
        | none => rw [hp] at h; simp at h
        | some p =>
          obtain ⟨tr', res⟩ := p
          rw [hp] at h
          simp only [Option.map_some', Option.some.injEq, Prod.mk.injEq] at h
          obtain ⟨htr, hres⟩ := h
          subst hres
          obtain ⟨h1, front, rlast, hfr, hsafe, hall⟩ := ih tr' hp
          subst htr
          refine ⟨?_, r :: front, rlast, by simp [hfr], hsafe, ?_⟩
          · intro e he
            rw [List.mem_cons, List.mem_cons] at he
            rcases he with he | he | he
            · exact Or.inl he
            · exact Or.inr he
            · exact h1 e he
          · intro x hx
            rw [List.mem_cons] at hx
            rcases hx with hx | hx
            · exact hx ▸ hs
            · exact hall x hx
      · rw [hs] at h
        simp only [Option.some.injEq, Prod.mk.injEq, KillRes.ok.injEq] at h
        obtain ⟨htr, hrem⟩ := h
        subst htr; subst hrem
        exact ⟨by simp, [], r, by simp, hs, by simp⟩

/-- Claim C3: with `force = true` and the initial check reporting the job
present, the kill phase issues exactly one kill command (right after the
initial query), then only re-queries with a fixed 500 ms backoff until a
listing shows the job gone, and returns. -/
theorem kill_phase_kills_exactly_once (name : String) (r0 : RunResult)
    (rs : List RunResult) (tr : List Ev) (rem : List RunResult)
    (h0 : is_safe_to_submit name r0 = Except.ok false)
    (h : _kill_existing_topology name true (r0 :: rs)
      = some (tr, KillRes.ok rem)) :
    tr.count Ev.killCmd = 1 ∧
    (∃ ptr, tr = Ev.listQuery :: Ev.killCmd :: ptr ∧
      ∀ e ∈ ptr, e = Ev.listQuery ∨ e = Ev.sleepMs 500) ∧
    ∃ front rlast, rs = front ++ rlast :: rem ∧
      is_safe_to_submit name rlast = Except.ok true ∧
      ∀ x ∈ front, is_safe_to_submit name x = Except.ok false := by
  rw [_kill_existing_topology, if_pos rfl, h0] at h
  cases hp : pollLoop name rs with
  | none => rw [hp] at h; simp at h
  | some p =>
    obtain ⟨ptr, res⟩ := p
    rw [hp] at h
    simp only [Option.map_some', Option.some.injEq, Prod.mk.injEq] at h
    obtain ⟨htr, hres⟩ := h
    subst hres
    obtain ⟨h1, front, rlast, hfr, hsafe, hall⟩ := pollLoop_spec name rs ptr rem hp
    subst htr
    have hnotin : Ev.killCmd ∉ ptr := by
      intro hmem
      rcases h1 _ hmem with h' | h' <;> exact Ev.noConfusion h'
    refine ⟨?_, ⟨ptr, rfl, h1⟩, front, rlast, hfr, hsafe, hall⟩
    simp [List.count_cons, List.count_eq_zero.mpr hnotin]

/-- Witness for C3: the job is present in the first two listings and gone
in the third; one kill, two polls. -/
theorem kill_phase_kills_exactly_once_witness :
    is_safe_to_submit "wordcount" exListingActive = Except.ok false ∧
    ([Ev.listQuery, Ev.killCmd, Ev.listQuery, Ev.sleepMs 500,
      Ev.listQuery].count Ev.killCmd = 1 ∧
    (∃ ptr, [Ev.listQuery, Ev.killCmd, Ev.listQuery, Ev.sleepMs 500,
        Ev.listQuery] = Ev.listQuery :: Ev.killCmd :: ptr ∧
      ∀ e ∈ ptr, e = Ev.listQuery ∨ e = Ev.sleepMs 500) ∧
    ∃ front rlast,
      [exListingActive, exListingEmpty] = front ++ rlast :: ([] : List RunResult) ∧
      is_safe_to_submit "wordcount" rlast = Except.ok true ∧
      ∀ x ∈ front, is_safe_to_submit "wordcount" x = Except.ok false) :=
  ⟨rfl,
   kill_phase_kills_exactly_once "wordcount" exListingActive
     [exListingActive, exListingEmpty]
     [Ev.listQuery, Ev.killCmd, Ev.listQuery, Ev.sleepMs 500, Ev.listQuery]
     [] rfl rfl⟩

/-! ## Helper lemmas about orchestrator event segments -/

/-- The events before the kill phase (without tunnel) are hook, venv and
build events only. -/
theorem mem_preBuildEvents (inp : OrchInput) (e : Ev)
    (h : e ∈ preBuildEvents inp) :
    e = Ev.preHooks ∨ e = Ev.venvUpdate ∨ e = Ev.cmdClean ∨ e = Ev.cmdUberjar := by
  rw [preBuildEvents, List.mem_append, List.mem_cons] at h
  rcases h with (h | h) | h
  · exact Or.inl h
  · split_ifs at h
    · rw [List.mem_singleton] at h
      exact Or.inr (Or.inl h)
    · exact absurd h (List.not_mem_nil e)
  · rw [buildEvents] at h
    split_ifs at h
    · rcases List.mem_cons.mp h with h | h
      · exact Or.inr (Or.inr (Or.inl h))
      · rw [List.mem_singleton] at h
        exact Or.inr (Or.inr (Or.inr h))
    · rw [List.mem_singleton] at h
      exact Or.inr (Or.inr (Or.inl h))

/-- The events before the kill phase are hook, venv, build and
tunnel-opening events only. -/
theorem mem_preludeEvents (inp : OrchInput) (e : Ev)
    (h : e ∈ preludeEvents inp) :
    e = Ev.preHooks ∨ e = Ev.venvUpdate ∨ e = Ev.cmdClean ∨
      e = Ev.cmdUberjar ∨ e = Ev.tunnelOpen := by
  rw [preludeEvents, List.mem_append] at h
  rcases h with h | h
  · rcases mem_preBuildEvents inp e h with h | h | h | h
    · exact Or.inl h
    · exact Or.inr (Or.inl h)
    · exact Or.inr (Or.inr (Or.inl h))
    · exact Or.inr (Or.inr (Or.inr (Or.inl h)))
  · split_ifs at h
    · rw [List.mem_singleton] at h
      exact Or.inr (Or.inr (Or.inr (Or.inr h)))
    · exact absurd h (List.not_mem_nil e)

/-- The closing segment holds at most the tunnel-teardown event. -/
theorem mem_closeEvents (inp : OrchInput) (e : Ev) (h : e ∈ closeEvents inp) :
    e = Ev.tunnelClose := by
  rw [closeEvents] at h
  split_ifs at h
  · exact List.mem_singleton.mp h
  · exact absurd h (List.not_mem_nil e)

/-- No safety query happens before the kill phase. -/
theorem preludeEvents_count_listQuery (inp : OrchInput) :
    (preludeEvents inp).count Ev.listQuery = 0 :=
  List.count_eq_zero.mpr (fun hm => by
    rcases mem_preludeEvents inp _ hm with h | h | h | h | h <;> exact Ev.noConfusion h)

/-- No kill command happens before the kill phase. -/
theorem preludeEvents_count_killCmd (inp : OrchInput) :
    (preludeEvents inp).count Ev.killCmd = 0 :=
  List.count_eq_zero.mpr (fun hm => by
    rcases mem_preludeEvents inp _ hm with h | h | h | h | h <;> exact Ev.noConfusion h)

/-- No submission happens before the kill phase. -/
theorem preludeEvents_not_submitRun (inp : OrchInput) (c : List String) :
    Ev.submitRun c ∉ preludeEvents inp := fun hm => by
  rcases mem_preludeEvents inp _ hm with h | h | h | h | h <;> exact Ev.noConfusion h

/-- The closing segment contains no safety query. -/
theorem closeEvents_count_listQuery (inp : OrchInput) :
    (closeEvents inp).count Ev.listQuery = 0 :=
  List.count_eq_zero.mpr (fun hm => Ev.noConfusion (mem_closeEvents inp _ hm))

/-- The closing segment contains no kill command. -/
theorem closeEvents_count_killCmd (inp : OrchInput) :
    (closeEvents inp).count Ev.killCmd = 0 :=
  List.count_eq_zero.mpr (fun hm => Ev.noConfusion (mem_closeEvents inp _ hm))

/-- The closing segment contains no submission. -/
theorem closeEvents_not_submitRun (inp : OrchInput) (c : List String) :
    Ev.submitRun c ∉ closeEvents inp := fun hm =>
  Ev.noConfusion (mem_closeEvents inp _ hm)

/-- Whatever its outcome, the poll loop emits only safety queries and
500 ms sleeps. -/
theorem pollLoop_events (name : String) (rs : List RunResult) (tr : List Ev)
    (res : KillRes) (h : pollLoop name rs = some (tr, res)) :
    ∀ e ∈ tr, e = Ev.listQuery ∨ e = Ev.sleepMs 500 := by
  induction rs generalizing tr res with
  | nil => simp [pollLoop] at h
  | cons r rs ih =>
    rw [pollLoop] at h
    cases hs : is_safe_to_submit name r with
    | error e2 =>
      rw [hs] at h
      simp only [Option.some.injEq, Prod.mk.injEq] at h
      obtain ⟨h1, -⟩ := h
      subst h1
      intro e he
      rw [List.mem_singleton] at he
      exact Or.inl he
    | ok b =>
      cases b
      · rw [hs] at h
        cases hp : pollLoop name rs with
        | none => rw [hp] at h; simp at h
        | some p =>
          obtain ⟨tr', res'⟩ := p
          rw [hp] at h
          simp only [Option.map_some', Option.some.injEq, Prod.mk.injEq] at h
          obtain ⟨h1, -⟩ := h
          subst h1
          intro e he
          rcases List.mem_cons.mp he with he | he
          · exact Or.inl he
          rcases List.mem_cons.mp he with he | he
          · exact Or.inr he
          · exact ih tr' res' hp e he
      · rw [hs] at h
        simp only [Option.some.injEq, Prod.mk.injEq] at h
        obtain ⟨h1, -⟩ := h
        subst h1
        intro e he
        rw [List.mem_singleton] at he
        exact Or.inl he

/-- The submitter always leaves `JVM_OPTS` set to the string built from
the artifact path, whichever branch it exits through. -/
theorem _submit_topology_env (n f j : String) (cfg : EnvConfig) (w a : Int)
    (o : List String) (d : Bool) (host0 : Option String) (port0 : Option Nat)
    (sok : Bool) (env0 : List (String × String)) :
    (_submit_topology n f j cfg w a o d host0 port0 sok env0).env
      = envSet env0 "JVM_OPTS" (jvm_opts_string j) := by
  unfold _submit_topology
  split <;> rfl

/-- The submitter emits either no event (its command construction raised)
or exactly one submission-command run. -/
theorem _submit_topology_events (n f j : String) (cfg : EnvConfig) (w a : Int)
    (o : List String) (d : Bool) (host0 : Option String) (port0 : Option Nat)
    (sok : Bool) (env0 : List (String × String)) :
    (_submit_topology n f j cfg w a o d host0 port0 sok env0).events = [] ∨
    ∃ cmd, (_submit_topology n f j cfg w a o d host0 port0 sok env0).events
      = [Ev.submitRun cmd] := by
  unfold _submit_topology
  split
  · exact Or.inl rfl
  · exact Or.inr ⟨_, rfl⟩

/-- When the submitter succeeded, it ran exactly one submission command. -/
theorem _submit_topology_ran (n f j : String) (cfg : EnvConfig) (w a : Int)
    (o : List String) (d : Bool) (host0 : Option String) (port0 : Option Nat)
    (sok : Bool) (env0 : List (String × String))
    (h : (_submit_topology n f j cfg w a o d host0 port0 sok env0).result
      = Except.ok ()) :
    ∃ cmd, (_submit_topology n f j cfg w a o d host0 port0 sok env0).events
      = [Ev.submitRun cmd] := by
  unfold _submit_topology at h ⊢
  split at h
  · exact absurd h (by simp)
  · exact ⟨_, rfl⟩

/-- No submission occurs in the prelude or the kill segment of a trace. -/
theorem no_submitRun_in_kill_segment (inp : OrchInput) (ptr : List Ev)
    (hptr : ∀ e ∈ ptr, e = Ev.listQuery ∨ e = Ev.sleepMs 500)
    (c2 : List String) :
    Ev.submitRun c2 ∉ preludeEvents inp ++ (Ev.listQuery :: Ev.killCmd :: ptr) := by
  intro hc2
  rcases List.mem_append.mp hc2 with hm | hm
  · exact preludeEvents_not_submitRun inp c2 hm
  · rcases List.mem_cons.mp hm with hm | hm
    · exact Ev.noConfusion hm
    rcases List.mem_cons.mp hm with hm | hm
    · exact Ev.noConfusion hm
    · rcases hptr _ hm with h | h <;> exact Ev.noConfusion h

/-- The kill phase without force is the identity on the oracle (helper
shared by the orchestrator proofs). -/
theorem kill_noop (name : String) (listings : List RunResult) :
    _kill_existing_topology name false listings
      = some ([], KillRes.ok listings) := rfl

/-- Unfolding of the forced kill phase when the first listing shows the
job present. -/
theorem kill_phase_forced_present (name : String) (r0 : RunResult)
    (rs : List RunResult) (h0 : is_safe_to_submit name r0 = Except.ok false) :
    _kill_existing_topology name true (r0 :: rs)
      = (pollLoop name rs).map
          (fun p => (Ev.listQuery :: Ev.killCmd :: p.1, p.2)) := by
  rw [_kill_existing_topology, if_pos rfl, h0]

/-- Reading back a freshly written environment variable. -/
theorem envGet_envSet (env : List (String × String)) (k v : String) :
    envGet (envSet env k v) k = some v := by
  simp [envGet, envSet]

/-- A failing build command makes `jar_for_deploy` raise. -/
theorem jar_for_deploy_fail (clean uberjar : CmdResult)
    (hb : clean.ok = false ∨ uberjar.ok = false) :
    ∃ e, jar_for_deploy clean uberjar = Except.error e := by
  rcases hb with hc | hu
  · exact ⟨_, by rw [jar_for_deploy, if_pos hc]⟩
  · by_cases hc : clean.ok = false
    · exact ⟨_, by rw [jar_for_deploy, if_pos hc]⟩
    · exact ⟨_, by rw [jar_for_deploy, if_neg hc, if_pos hu]⟩

/-- Decomposition of a forced-submission trace: the kill command appears
exactly once, strictly before the unique submission run. -/
theorem submit_after_kill_decomp (inp : OrchInput) (ptr sev rest : List Ev)
    (cmd : List String)
    (hptr : ∀ e ∈ ptr, e = Ev.listQuery ∨ e = Ev.sleepMs 500)
    (hsev : sev = [] ∨ ∃ c, sev = [Ev.submitRun c])
    (hrest : ∀ e ∈ rest, e = Ev.postHooks ∨ e = Ev.tunnelClose)
    (hmem : Ev.submitRun cmd ∈
      preludeEvents inp ++ (Ev.listQuery :: Ev.killCmd :: ptr) ++ sev ++ rest) :
    (preludeEvents inp ++ (Ev.listQuery :: Ev.killCmd :: ptr) ++ sev
        ++ rest).count Ev.killCmd = 1 ∧
    ∃ t1 t2,
      preludeEvents inp ++ (Ev.listQuery :: Ev.killCmd :: ptr) ++ sev ++ rest
        = t1 ++ Ev.submitRun cmd :: t2 ∧
      Ev.killCmd ∈ t1 ∧ ∀ c2, Ev.submitRun c2 ∉ t1 := by
  have hknotptr : Ev.killCmd ∉ ptr := fun hk => by
    rcases hptr _ hk with h | h <;> exact Ev.noConfusion h
  have hkrest : Ev.killCmd ∉ rest := fun hk => by
    rcases hrest _ hk with h | h <;> exact Ev.noConfusion h
  have hsev' : sev = [Ev.submitRun cmd] := by
    rcases hsev with hs0 | ⟨c, hs0⟩ <;> subst hs0
    · exfalso
      rcases List.mem_append.mp hmem with hm | hm
      · rw [List.append_nil] at hm
        exact no_submitRun_in_kill_segment inp ptr hptr cmd hm
      · rcases hrest _ hm with h | h <;> exact Ev.noConfusion h
    · rcases List.mem_append.mp hmem with hm | hm
      · rcases List.mem_append.mp hm with hm | hm
        · exact absurd hm (no_submitRun_in_kill_segment inp ptr hptr cmd)
        · rw [List.mem_singleton] at hm
          injection hm with hm'
          rw [hm']
      · exfalso
        rcases hrest _ hm with h | h <;> exact Ev.noConfusion h
  subst hsev'
  refine ⟨?_, preludeEvents inp ++ (Ev.listQuery :: Ev.killCmd :: ptr), rest,
    by simp, by simp [List.mem_append], no_submitRun_in_kill_segment inp ptr hptr⟩
  simp [List.count_append, List.count_cons, preludeEvents_count_killCmd,
    List.count_eq_zero.mpr hknotptr, List.count_eq_zero.mpr hkrest]

/-! ## Claim C1: submission vs. job state -/

/-- Claim C1 (amended): when `force` is set and the first listing shows
the job present, the orchestrator issues exactly one kill, polls until a
listing shows the job gone, and only after that runs the submitter; when
`force` is not set the orchestrator performs no safety query and no kill
at all, and (whenever the run succeeds) invokes the submitter anyway. -/
theorem forced_submit_only_after_absent (inp : OrchInput) (out : OrchOut)
    (h : submit_topology inp = some out) :
    (inp.force = false →
      out.trace.count Ev.listQuery = 0 ∧ out.trace.count Ev.killCmd = 0 ∧
      (out.result = Except.ok () → ∃ cmd, Ev.submitRun cmd ∈ out.trace)) ∧
    (inp.force = true →
      ∀ r0 rs0, inp.listings = r0 :: rs0 →
        is_safe_to_submit inp.name r0 = Except.ok false →
        ∀ cmd, Ev.submitRun cmd ∈ out.trace →
          out.trace.count Ev.killCmd = 1 ∧
          (∃ t1 t2, out.trace = t1 ++ Ev.submitRun cmd :: t2 ∧
            Ev.killCmd ∈ t1 ∧ ∀ c2, Ev.submitRun c2 ∉ t1) ∧
          ∃ front rlast rem, rs0 = front ++ rlast :: rem ∧
            is_safe_to_submit inp.name rlast = Except.ok true ∧
            ∀ x ∈ front, is_safe_to_submit inp.name x = Except.ok false) := by
  cases hj : jar_for_deploy inp.clean_result inp.uberjar_result with
  | error e =>
    rw [submit_topology, hj, Option.some.injEq] at h
    subst h
    constructor
    · intro _
      refine ⟨?_, ?_, ?_⟩
      · exact List.count_eq_zero.mpr (fun hm => by
          rcases mem_preBuildEvents inp _ hm with h'|h'|h'|h' <;> exact Ev.noConfusion h')
      · exact List.count_eq_zero.mpr (fun hm => by
          rcases mem_preBuildEvents inp _ hm with h'|h'|h'|h' <;> exact Ev.noConfusion h')
      · intro hres
        exact absurd hres (by simp)
    · intro hforce r0 rs0 hls hr0 cmd hmem
      exfalso
      rcases mem_preBuildEvents inp _ hmem with h'|h'|h'|h' <;> exact Ev.noConfusion h'
  | ok jar =>
    simp only [submit_topology, hj] at h
    split at h
    · exact Option.noConfusion h
    · next ktr e heq =>
      constructor
      · intro hforce
        rw [hforce, kill_noop, Option.some.injEq, Prod.mk.injEq] at heq
        exact KillRes.noConfusion heq.2
      · intro hforce r0 rs0 hls hr0 cmd hmem
        rw [Option.some.injEq] at h
        subst h
        dsimp only at hmem
        rw [hforce, hls, kill_phase_forced_present inp.name r0 rs0 hr0] at heq
        cases hp : pollLoop inp.name rs0 with
        | none => rw [hp] at heq; exact Option.noConfusion heq
        | some p =>
          obtain ⟨ptr, res⟩ := p
          rw [hp] at heq
          simp only [Option.map_some', Option.some.injEq, Prod.mk.injEq] at heq
          obtain ⟨h1, -⟩ := heq
          subst h1
          exfalso
          rcases List.mem_append.mp hmem with hm | hm
          · exact no_submitRun_in_kill_segment inp ptr
              (pollLoop_events inp.name rs0 ptr res hp) cmd hm
          · exact Ev.noConfusion (mem_closeEvents inp _ hm)
    · next ktr rem heq =>
      have hsev := _submit_topology_events inp.name inp.topology_file jar
        inp.env_config inp.workers inp.ackers inp.options inp.debug
        (if inp.env_config.ssh_tunnel = true then none else inp.host)
        (if inp.env_config.ssh_tunnel = true then none else inp.port)
        inp.submit_ok inp.env0
      split at h
      · next e2 heq2 =>
        rw [Option.some.injEq] at h
        subst h
        constructor
        · intro hforce
          rw [hforce, kill_noop, Option.some.injEq, Prod.mk.injEq] at heq
          obtain ⟨hk1, -⟩ := heq
          subst hk1
          refine ⟨?_, ?_, fun hres => absurd hres (by simp)⟩
          · rcases hsev with hse | ⟨c, hse⟩ <;>
              simp [hse, List.count_append, preludeEvents_count_listQuery,
                closeEvents_count_listQuery, List.count_cons]
          · rcases hsev with hse | ⟨c, hse⟩ <;>
              simp [hse, List.count_append, preludeEvents_count_killCmd,
                closeEvents_count_killCmd, List.count_cons]
        · intro hforce r0 rs0 hls hr0 cmd hmem
          dsimp only at hmem ⊢
          rw [hforce, hls, kill_phase_forced_present inp.name r0 rs0 hr0] at heq
          cases hp : pollLoop inp.name rs0 with
          | none => rw [hp] at heq; exact Option.noConfusion heq
          | some p =>
            obtain ⟨ptr, res⟩ := p
            rw [hp] at heq
            simp only [Option.map_some', Option.some.injEq, Prod.mk.injEq] at heq
            obtain ⟨h1, h2⟩ := heq
            subst h1
            subst h2
            obtain ⟨hcount, hdec⟩ := submit_after_kill_decomp inp ptr _
              (closeEvents inp) cmd
              (pollLoop_events inp.name rs0 ptr _ hp) hsev
              (fun e2 he2 => Or.inr (mem_closeEvents inp e2 he2)) hmem
            obtain ⟨-, front, rlast, hfr, hsafe, hall⟩ :=
              pollLoop_spec inp.name rs0 ptr rem hp
            exact ⟨hcount, hdec, front, rlast, rem, hfr, hsafe, hall⟩
      · next u heq2 =>
        rw [Option.some.injEq] at h
        subst h
        constructor
        · intro hforce
          rw [hforce, kill_noop, Option.some.injEq, Prod.mk.injEq] at heq
          obtain ⟨hk1, -⟩ := heq
          subst hk1
          refine ⟨?_, ?_, ?_⟩
          · rcases hsev with hse | ⟨c, hse⟩ <;>
              simp [hse, List.count_append, preludeEvents_count_listQuery,
                closeEvents_count_listQuery, List.count_cons]
          · rcases hsev with hse | ⟨c, hse⟩ <;>
              simp [hse, List.count_append, preludeEvents_count_killCmd,
                closeEvents_count_killCmd, List.count_cons]
          · intro _
            cases u
            obtain ⟨c, hse⟩ := _submit_topology_ran inp.name inp.topology_file jar
              inp.env_config inp.workers inp.ackers inp.options inp.debug
              (if inp.env_config.ssh_tunnel = true then none else inp.host)
              (if inp.env_config.ssh_tunnel = true then none else inp.port)
              inp.submit_ok inp.env0 heq2
            refine ⟨c, ?_⟩
            rw [hse]
            simp [List.mem_append]
        · intro hforce r0 rs0 hls hr0 cmd hmem
          dsimp only at hmem ⊢
          rw [hforce, hls, kill_phase_forced_present inp.name r0 rs0 hr0] at heq
          cases hp : pollLoop inp.name rs0 with
          | none => rw [hp] at heq; exact Option.noConfusion heq
          | some p =>
            obtain ⟨ptr, res⟩ := p
            rw [hp] at heq
            simp only [Option.map_some', Option.some.injEq, Prod.mk.injEq] at heq
            obtain ⟨h1, h2⟩ := heq
            subst h1
            subst h2
            rw [List.append_assoc _ [Ev.postHooks] (closeEvents inp)] at hmem ⊢
            obtain ⟨hcount, hdec⟩ := submit_after_kill_decomp inp ptr _
              ([Ev.postHooks] ++ closeEvents inp) cmd
              (pollLoop_events inp.name rs0 ptr _ hp) hsev
              (fun e2 he2 => by
                rcases List.mem_append.mp he2 with hm | hm
                · exact Or.inl (List.mem_singleton.mp hm)
                · exact Or.inr (mem_closeEvents inp e2 hm)) hmem
            obtain ⟨-, front, rlast, hfr, hsafe, hall⟩ :=
              pollLoop_spec inp.name rs0 ptr rem hp
            exact ⟨hcount, hdec, front, rlast, rem, hfr, hsafe, hall⟩

/-- Counterexample to claim C1 as stated: with `force = false` and the
sole listing showing the job ACTIVE, the orchestrator never consults the
listing and still runs the submit step, succeeding. -/
theorem unforced_submit_runs_despite_active :
    cInp1.force = false ∧
    is_safe_to_submit cInp1.name exListingActive = Except.ok false ∧
    cInp1.listings = [exListingActive] ∧
    submit_topology cInp1 = some exOut1 ∧
    Ev.submitRun exCmdW ∈ exOut1.trace ∧
    exOut1.result = Except.ok () :=
  ⟨rfl, rfl, rfl, rfl, by decide, rfl⟩

/-- Witness for the amended C1 at a concrete forced run: present in the
first listing, gone in the second, one kill before the submission. -/
theorem forced_submit_only_after_absent_witness :
    exOutW.trace.count Ev.killCmd = 1 ∧
    (∃ t1 t2, exOutW.trace = t1 ++ Ev.submitRun exCmdW :: t2 ∧
      Ev.killCmd ∈ t1 ∧ ∀ c2, Ev.submitRun c2 ∉ t1) ∧
    ∃ front rlast rem, [exListingEmpty] = front ++ rlast :: rem ∧
      is_safe_to_submit cInp1w.name rlast = Except.ok true ∧
      ∀ x ∈ front, is_safe_to_submit cInp1w.name x = Except.ok false :=
  (forced_submit_only_after_absent cInp1w exOutW rfl).2 rfl exListingActive
    [exListingEmpty] rfl rfl exCmdW (by decide)

/-! ## Claim C4: build failure aborts the run -/

/-- Counterexample to claim C4 as stated: when `lein clean` fails, the
pre-submission hooks have already run (they precede the build in the
orchestrator), so it is not true that no hooks run. -/
theorem build_failure_pre_hooks_already_ran :
    cInp4.clean_result.ok = false ∧
    (submit_topology cInp4).map OrchOut.trace
      = some [Ev.preHooks, Ev.cmdClean] ∧
    (submit_topology cInp4).map OrchOut.result
      = some (Except.error
          "Unable to run \x27lein clean\x27!\nSTDOUT:\n\nSTDERR:\n") :=
  ⟨rfl, rfl, rfl⟩

/-- Claim C4 (amended): when the build command fails, the orchestrator
aborts with an error before any listing, kill or submit call, the process
exits non-zero, the post-submission hooks never run and the environment
is untouched — but the pre-submission hooks have already run, since they
precede the build. -/
theorem build_failure_aborts (inp : OrchInput)
    (hb : inp.clean_result.ok = false ∨ inp.uberjar_result.ok = false) :
    ∃ out, submit_topology inp = some out ∧
      (∃ e, out.result = Except.error e) ∧
      Ev.preHooks ∈ out.trace ∧
      out.trace.count Ev.listQuery = 0 ∧
      out.trace.count Ev.killCmd = 0 ∧
      (∀ cmd, Ev.submitRun cmd ∉ out.trace) ∧
      Ev.postHooks ∉ out.trace ∧
      out.env = inp.env0 := by
  obtain ⟨e, he⟩ := jar_for_deploy_fail inp.clean_result inp.uberjar_result hb
  refine ⟨⟨preBuildEvents inp, Except.error e, inp.env0⟩,
    by rw [submit_topology, he], ⟨e, rfl⟩, ?_, ?_, ?_, ?_, ?_, rfl⟩
  · rw [preBuildEvents]
    exact List.mem_append_left _ (List.mem_cons_self _ _)
  · exact List.count_eq_zero.mpr (fun hm => by
      rcases mem_preBuildEvents inp _ hm with h'|h'|h'|h' <;> exact Ev.noConfusion h')
  · exact List.count_eq_zero.mpr (fun hm => by
      rcases mem_preBuildEvents inp _ hm with h'|h'|h'|h' <;> exact Ev.noConfusion h')
  · intro cmd hm
    rcases mem_preBuildEvents inp _ hm with h'|h'|h'|h' <;> exact Ev.noConfusion h'
  · intro hm
    rcases mem_preBuildEvents inp _ hm with h'|h'|h'|h' <;> exact Ev.noConfusion h'

/-- Witness for the amended C4 at a concrete failing build. -/
theorem build_failure_aborts_witness :
    (cInp4.clean_result.ok = false ∨ cInp4.uberjar_result.ok = false) ∧
    ∃ out, submit_topology cInp4 = some out ∧
      (∃ e, out.result = Except.error e) ∧
      Ev.preHooks ∈ out.trace ∧
      out.trace.count Ev.listQuery = 0 ∧
      out.trace.count Ev.killCmd = 0 ∧
      (∀ cmd, Ev.submitRun cmd ∉ out.trace) ∧
      Ev.postHooks ∉ out.trace ∧
      out.env = cInp4.env0 :=
  ⟨Or.inl rfl, build_failure_aborts cInp4 (Or.inl rfl)⟩

/-! ## Claim C9: the JVM_OPTS mutation persists -/

/-- Claim C9: once the submitter has run for an artifact path, the
process-wide `JVM_OPTS` variable holds exactly the string built from that
path, and no later orchestrator step (nor any exit path of the submitter)
undoes the write: the final environment of the whole run still holds it. -/
theorem jvm_opts_persisted (inp : OrchInput) (out : OrchOut) (jar : String)
    (ktr : List Ev) (rem : List RunResult)
    (hj : jar_for_deploy inp.clean_result inp.uberjar_result = Except.ok jar)
    (hk : _kill_existing_topology inp.name inp.force inp.listings
      = some (ktr, KillRes.ok rem))
    (h : submit_topology inp = some out) :
    envGet out.env "JVM_OPTS" = some (jvm_opts_string jar) := by
  simp only [submit_topology, hj] at h
  split at h
  · exact Option.noConfusion h
  · next ktr2 e heq =>
    rw [hk, Option.some.injEq, Prod.mk.injEq] at heq
    exact KillRes.noConfusion heq.2
  · next ktr2 rem2 heq =>
    split at h
    · next e2 heq2 =>
      rw [Option.some.injEq] at h
      subst h
      dsimp only
      rw [_submit_topology_env, envGet_envSet]
    · next u heq2 =>
      rw [Option.some.injEq] at h
      subst h
      dsimp only
      rw [_submit_topology_env, envGet_envSet]

/-- Witness for C9: a successful end-to-end run leaves `JVM_OPTS` set to
the string built from the located artifact. -/
theorem jvm_opts_persisted_witness :
    submit_topology cInp1 = some exOut1 ∧
    envGet exOut1.env "JVM_OPTS" = some (jvm_opts_string "wc-standalone.jar") :=
  ⟨rfl, jvm_opts_persisted cInp1 exOut1 "wc-standalone.jar" []
    [exListingActive] rfl rfl rfl⟩

/-! ## Claim C2: the safety check versus the literal-name reading

The claim reads `is_safe_to_submit` as a literal-substring test on the
topology name.  The code interpolates the name into the regex unescaped
(claim C10), so the literal reading fails for names holding regex
metacharacters; for plain names the two coincide, which the amended
theorem proves through a full characterisation of the regex search. -/

/-- Reduction: matching the empty pattern always succeeds. -/
theorem matchAt_nil (s : List Char) : matchAt s [] = true := by
  cases s <;> simp [matchAt]

/-- Characterisation of matching a block of literal tokens. -/
theorem matchAt_lits_iff (l : List Char) (ts : List RTok) (s : List Char) :
    matchAt s (l.map RTok.lit ++ ts) = true ↔
      ∃ r, s = l ++ r ∧ matchAt r ts = true := by
  induction l generalizing s with
  | nil => simp
  | cons c l ih =>
    cases s with
    | nil =>
      simp [matchAt]
    | cons c' s =>
      simp only [List.map_cons, List.cons_append, matchAt, Bool.and_eq_true,
        beq_iff_eq, List.append_eq, ih, List.cons.injEq]
      constructor
      · rintro ⟨hc, r, hr, hm⟩
        exact ⟨r, ⟨hc.symm, hr⟩, hm⟩
      · rintro ⟨r, ⟨hc, hr⟩, hm⟩
        exact ⟨hc.symm, r, hr, hm⟩

/-- Characterisation of matching one literal token. -/
theorem matchAt_lit_iff (c : Char) (ts : List RTok) (s : List Char) :
    matchAt s (RTok.lit c :: ts) = true ↔
      ∃ r, s = c :: r ∧ matchAt r ts = true := by
  have := matchAt_lits_iff [c] ts s
  simpa using this

/-- Introduction rule for matching `\s+`: any nonempty whitespace run may
be consumed. -/
theorem matchAt_wsPlus_intro (ts : List RTok) (w r : List Char)
    (hne : w ≠ []) (hws : ∀ c ∈ w, isPyWs c = true)
    (hm : matchAt r ts = true) :
    matchAt (w ++ r) (RTok.wsPlus :: ts) = true := by
  induction w with
  | nil => exact absurd rfl hne
  | cons c w ih =>
    have hc : isPyWs c = true := hws c (List.mem_cons_self c w)
    cases w with
    | nil => simp [matchAt, hc, hm]
    | cons c2 w2 =>
      have h2 := ih (by simp) (fun x hx => hws x (List.mem_cons_of_mem _ hx))
      simp only [List.cons_append, matchAt, hc, Bool.true_and, Bool.or_eq_true]
      right
      exact h2

/-- Elimination rule for matching `\s+`: a successful match consumed a
nonempty whitespace run. -/
theorem matchAt_wsPlus_elim (ts : List RTok) (s : List Char)
    (h : matchAt s (RTok.wsPlus :: ts) = true) :
    ∃ w r, s = w ++ r ∧ w ≠ [] ∧ (∀ c ∈ w, isPyWs c = true) ∧
      matchAt r ts = true := by
  induction s with
  | nil => simp [matchAt] at h
  | cons c s ih =>
    simp only [matchAt, Bool.and_eq_true, Bool.or_eq_true] at h
    obtain ⟨hc, h⟩ := h
    rcases h with h | h
    · exact ⟨[c], s, rfl, by simp, by simp [hc], h⟩
    · obtain ⟨w, r, hs, hne, hws, hm⟩ := ih h
      refine ⟨c :: w, r, by rw [hs, List.cons_append], by simp, ?_, hm⟩
      intro x hx
      rcases List.mem_cons.mp hx with hx | hx
      · rw [hx]; exact hc
      · exact hws x hx

/-- Characterisation of matching `\s+`. -/
theorem matchAt_ws_iff (ts : List RTok) (s : List Char) :
    matchAt s (RTok.wsPlus :: ts) = true ↔
      ∃ w r, s = w ++ r ∧ w ≠ [] ∧ (∀ c ∈ w, isPyWs c = true) ∧
        matchAt r ts = true := by
  constructor
  · exact matchAt_wsPlus_elim ts s
  · rintro ⟨w, r, rfl, hne, hws, hm⟩
    exact matchAt_wsPlus_intro ts w r hne hws hm

/-- `re.search` succeeds iff the pattern matches at some split point. -/
theorem reSearch_iff (ts : List RTok) (s : List Char) :
    reSearch ts s = true ↔ ∃ p q, s = p ++ q ∧ matchAt q ts = true := by
  induction s with
  | nil =>
    simp only [reSearch]
    constructor
    · intro h; exact ⟨[], [], rfl, h⟩
    · rintro ⟨p, q, hpq, hm⟩
      obtain ⟨rfl, rfl⟩ := List.append_eq_nil.mp hpq.symm
      exact hm
  | cons c s ih =>
    simp only [reSearch, Bool.or_eq_true, ih]
    constructor
    · rintro (h | ⟨p, q, hs, hm⟩)
      · exact ⟨[], c :: s, rfl, h⟩
      · exact ⟨c :: p, q, by rw [hs, List.cons_append], hm⟩
    · rintro ⟨p, q, hs, hm⟩
      cases p with
      | nil =>
        left
        simp only [List.nil_append] at hs
        rw [hs]
        exact hm
      | cons cp p =>
        right
        injection hs with h1 h2
        exact ⟨p, q, h2, hm⟩

/-- Every character of the name occurs in a text that contains the
literal still-present line for that name. -/
theorem stillPresentLine_chars (name state : String) (T : List Char)
    (h : stillPresentLine name state T) : ∀ c ∈ name.data, c ∈ T := by
  obtain ⟨w1, w2, w3, -, -, -, p, q, hT⟩ := h
  intro c hc
  subst hT
  simp only [List.mem_append, List.mem_cons]
  tauto

/-- For a name whose tokens are all literals, the regex search for
`{name}\s+\|\s+{state}\s+\|` succeeds exactly on texts that contain the
literal still-present line. -/
theorem search_still_iff (name state : String) (T : List Char)
    (hname : nameToks name = name.data.map RTok.lit) :
    reSearch (stillPresentPattern name state) T = true ↔
      stillPresentLine name state T := by
  rw [reSearch_iff]
  constructor
  · rintro ⟨p, q, rfl, hm⟩
    rw [stillPresentPattern, hname] at hm
    have hm' : matchAt q (name.data.map RTok.lit ++
        (RTok.wsPlus :: RTok.lit '|' :: RTok.wsPlus ::
          (state.data.map RTok.lit ++ [RTok.wsPlus, RTok.lit '|']))) = true := by
      simpa [List.append_assoc] using hm
    obtain ⟨r1, rfl, hm1⟩ := (matchAt_lits_iff _ _ _).mp hm'
    obtain ⟨w1, r2, rfl, hne1, hws1, hm2⟩ := (matchAt_ws_iff _ _).mp hm1
    obtain ⟨r3, rfl, hm3⟩ := (matchAt_lit_iff _ _ _).mp hm2
    obtain ⟨w2, r4, rfl, hne2, hws2, hm4⟩ := (matchAt_ws_iff _ _).mp hm3
    obtain ⟨r5, rfl, hm5⟩ := (matchAt_lits_iff _ _ _).mp hm4
    obtain ⟨w3, r6, rfl, hne3, hws3, hm6⟩ := (matchAt_ws_iff _ _).mp hm5
    obtain ⟨r7, rfl, -⟩ := (matchAt_lit_iff _ _ _).mp hm6
    refine ⟨w1, w2, w3, ⟨hne1, hws1⟩, ⟨hne2, hws2⟩, ⟨hne3, hws3⟩, p, r7, ?_⟩
    simp [List.append_assoc]
  · rintro ⟨w1, w2, w3, ⟨hne1, hws1⟩, ⟨hne2, hws2⟩, ⟨hne3, hws3⟩, p, q, rfl⟩
    have h6 : matchAt ('|' :: q) [RTok.lit '|'] = true :=
      (matchAt_lit_iff _ _ _).mpr ⟨q, rfl, matchAt_nil q⟩
    have h5 : matchAt (w3 ++ '|' :: q) [RTok.wsPlus, RTok.lit '|'] = true :=
      matchAt_wsPlus_intro _ _ _ hne3 hws3 h6
    have h4 : matchAt (state.data ++ (w3 ++ '|' :: q))
        (state.data.map RTok.lit ++ [RTok.wsPlus, RTok.lit '|']) = true :=
      (matchAt_lits_iff _ _ _).mpr ⟨w3 ++ '|' :: q, rfl, h5⟩
    have h3 : matchAt (w2 ++ (state.data ++ (w3 ++ '|' :: q)))
        (RTok.wsPlus :: (state.data.map RTok.lit ++ [RTok.wsPlus, RTok.lit '|'])) = true :=
      matchAt_wsPlus_intro _ _ _ hne2 hws2 h4
    have h2 : matchAt ('|' :: (w2 ++ (state.data ++ (w3 ++ '|' :: q))))
        (RTok.lit '|' :: RTok.wsPlus ::
          (state.data.map RTok.lit ++ [RTok.wsPlus, RTok.lit '|'])) = true :=
      (matchAt_lit_iff _ _ _).mpr ⟨_, rfl, h3⟩
    have h1 : matchAt (w1 ++ ('|' :: (w2 ++ (state.data ++ (w3 ++ '|' :: q)))))
        (RTok.wsPlus :: RTok.lit '|' :: RTok.wsPlus ::
          (state.data.map RTok.lit ++ [RTok.wsPlus, RTok.lit '|'])) = true :=
      matchAt_wsPlus_intro _ _ _ hne1 hws1 h2
    have h0 : matchAt (name.data ++ (w1 ++ ('|' :: (w2 ++ (state.data ++ (w3 ++ '|' :: q))))))
        (name.data.map RTok.lit ++
          (RTok.wsPlus :: RTok.lit '|' :: RTok.wsPlus ::
            (state.data.map RTok.lit ++ [RTok.wsPlus, RTok.lit '|']))) = true :=
      (matchAt_lits_iff _ _ _).mpr ⟨_, rfl, h1⟩
    refine ⟨p, name.data ++ (w1 ++ ('|' :: (w2 ++ (state.data ++ (w3 ++ '|' :: q))))),
      by simp [List.append_assoc], ?_⟩
    rw [stillPresentPattern, hname]
    simpa [List.append_assoc] using h0

/-- Counterexample to claim C2 as stated: for the name `a.c` and the
listing `abc | ACTIVE |`, the check reports the job present although the
text contains no still-present line for the literal name `a.c` (the text
does not even contain a `.`). -/
theorem name_regex_breaks_literal_reading :
    is_safe_to_submit "a.c" ⟨false, "abc | ACTIVE |"⟩ = Except.ok false ∧
    ¬ (stillPresentLine "a.c" "ACTIVE" ("abc | ACTIVE |").data ∨
       stillPresentLine "a.c" "KILLED" ("abc | ACTIVE |").data) := by
  refine ⟨rfl, ?_⟩
  have hdot : ('.' : Char) ∉ ("abc | ACTIVE |").data := by decide
  rintro (h | h) <;>
    exact hdot (stillPresentLine_chars _ _ _ h '.' (by decide))

/-- Claim C2 (amended): for job names built only from alphanumerics, `-`
and `_` (names in which the unescaped regex interpolation is harmless),
and a successful listing, `is_safe_to_submit` returns `false` iff the
listing text contains the name, a pipe, `ACTIVE` or `KILLED`, and a pipe,
separated by nonempty whitespace runs — the name taken literally.  For
names with regex metacharacters the literal reading fails (see the
counterexample): the name is interpolated into the pattern unescaped. -/
theorem is_safe_literal_iff (name : String) (res : RunResult)
    (hplain : ∀ c ∈ name.data, (c.isAlphanum || c == '-' || c == '_') = true)
    (hok : res.failed = false) :
    is_safe_to_submit name res = Except.ok false ↔
      (stillPresentLine name "ACTIVE" res.stdout.data ∨
       stillPresentLine name "KILLED" res.stdout.data) := by
  have hname : nameToks name = name.data.map RTok.lit := by
    rw [nameToks]
    apply List.map_congr_left
    intro c hc
    have hch := hplain c hc
    have hne : (c == '.') = false := by
      rw [beq_eq_false_iff_ne]
      intro hcdot
      subst hcdot
      exact absurd hch (by decide)
    rw [hne]
    simp
  have hA := search_still_iff name "ACTIVE" res.stdout.data hname
  have hK := search_still_iff name "KILLED" res.stdout.data hname
  rw [is_safe_to_submit, hok]
  simp only [Bool.false_eq_true, if_false]
  split
  · next hcond =>
    rw [Bool.or_eq_true] at hcond
    constructor
    · intro _
      rcases hcond with hc | hc
      · exact Or.inl (hA.mp hc)
      · exact Or.inr (hK.mp hc)
    · intro _
      rfl
  · next hcond =>
    constructor
    · intro habs
      exact absurd habs (by simp)
    · rintro (hl | hl)
      · exact (hcond (by simp [hA.mpr hl])).elim
      · exact (hcond (by simp [hK.mpr hl])).elim

/-- Witness for the amended C2 at a plain name and a listing that shows
the job ACTIVE. -/
theorem is_safe_literal_iff_witness :
    stillPresentLine "wordcount" "ACTIVE" ("wordcount | ACTIVE |").data ∨
    stillPresentLine "wordcount" "KILLED" ("wordcount | ACTIVE |").data :=
  (is_safe_literal_iff "wordcount" ⟨false, "wordcount | ACTIVE |"⟩
    (by decide) rfl).mp rfl

end Streamparse


